import Mathlib

/-!
Verification of the bedrock-notify core against its natural-language
specification. The definitions below are a shallow embedding of the
JavaScript sources: `src/lib/pollers.js` (push tokens), `src/lib/poll.js`
(the poll coalescer), `src/lib/watches.js` (the watch store) and
`src/lib/watchers.js` (the watch scheduler). JavaScript numbers holding
millisecond timestamps are embedded as `Int`; JS `undefined`/`null` as
`Option`; thrown errors as `Except`.
-/

namespace BedrockNotify

/-! ## Push tokens (`src/lib/pollers.js`, second revision: `event`-based API) -/

/-- Alphabet used by Node's `base64url` encoding. -/
def base64urlAlphabet : List Char :=
  "ABCDEFGHIJKLMNOPQRSTUVWXYZabcdefghijklmnopqrstuvwxyz0123456789-_".toList

/-- Character for a 6-bit group. -/
def base64urlChar (n : Nat) : Char := base64urlAlphabet.getD n 'A'

/-- Unpadded base64url encoding of a byte list, as produced by
`Buffer.prototype.toString('base64url')`. -/
def base64urlEncode : List Nat → List Char
  | [] => []
  | [b1] => [base64urlChar (b1 / 4), base64urlChar (b1 % 4 * 16)]
  | [b1, b2] =>
    [base64urlChar (b1 / 4), base64urlChar (b1 % 4 * 16 + b2 / 16),
     base64urlChar (b2 % 16 * 4)]
  | b1 :: b2 :: b3 :: rest =>
    base64urlChar (b1 / 4) :: base64urlChar (b1 % 4 * 16 + b2 / 16) ::
    base64urlChar (b2 % 16 * 4 + b3 / 64) :: base64urlChar (b3 % 64) ::
    base64urlEncode rest

/-- UTF-8 encoding of one character (what `Buffer.from(string)` does per
code point). -/
def utf8EncodeChar (c : Char) : List Nat :=
  let n := c.toNat
  if n < 128 then [n]
  else if n < 2048 then [192 + n / 64, 128 + n % 64]
  else if n < 65536 then [224 + n / 4096, 128 + n / 64 % 64, 128 + n % 64]
  else [240 + n / 262144, 128 + n / 4096 % 64, 128 + n / 64 % 64, 128 + n % 64]

/-- UTF-8 bytes of a string. -/
def utf8Encode (s : String) : List Nat :=
  s.data.foldr (fun c acc => utf8EncodeChar c ++ acc) []

/-- Base64url encoding of the UTF-8 bytes of a string:
`Buffer.from(json).toString('base64url')`. -/
def base64urlEncodeString (s : String) : String :=
  String.mk (base64urlEncode (utf8Encode s))

/-- Lower-case hex digit, used for JSON control-character escapes. -/
def hexDigitChar (n : Nat) : Char := "0123456789abcdef".toList.getD (n % 16) '0'

/-- `JSON.stringify` escaping of one character inside a string literal. -/
def jsonEscapeChar (c : Char) : List Char :=
  if c = '"' then ['\\', '"']
  else if c = '\\' then ['\\', '\\']
  else if c.toNat = 8 then ['\\', 'b']
  else if c.toNat = 9 then ['\\', 't']
  else if c.toNat = 10 then ['\\', 'n']
  else if c.toNat = 12 then ['\\', 'f']
  else if c.toNat = 13 then ['\\', 'r']
  else if c.toNat < 32 then
    ['\\', 'u', '0', '0', hexDigitChar (c.toNat / 16), hexDigitChar (c.toNat % 16)]
  else [c]

/-- `JSON.stringify([event, expires])` as built by `createPushToken`:
a two-element array of a string and an integer timestamp. -/
def jsonStringifyPair (event : String) (expires : Int) : String :=
  String.mk
    (['[', '"'] ++ event.data.foldr (fun c acc => jsonEscapeChar c ++ acc) [] ++
     ['"', ','] ++ (toString expires).data ++ [']'])

/-- Return shape of `createPushToken`. -/
structure PushTokenResult where
  token : String
  signature : String
deriving DecidableEq

/-- Failures of `createPushToken`; `assert.date(expires)` from `assert-plus`
throws an AssertionError when `expires` is not a `Date` (in particular when it
is omitted/`undefined`). -/
inductive CreateTokenError where
  | assertionError
deriving DecidableEq

def TWENTY_MINUTES : Int := 1000 * 60 * 20

/-- `createPushToken({event, expires})` from `src/lib/pollers.js` lines
458-477. `hs256` abstracts the keyed `_hs256` HMAC (an external `node:crypto`
call). `expires` is `none` when the option is omitted. Note the source runs
`assert.date(expires, ...)` BEFORE the `expires = expires ?? new Date(now +
TWENTY_MINUTES)` default, so the default is dead code: a missing `expires`
throws. -/
def createPushToken (hs256 : String → String) (event : String)
    (expires : Option Int) (now : Int) : Except CreateTokenError PushTokenResult :=
  match expires with
  | none => Except.error CreateTokenError.assertionError
  | some exp =>
    let json := jsonStringifyPair event exp
    let payload := base64urlEncodeString json
    let signature := hs256 payload
    Except.ok { token := "u" ++ payload ++ "." ++ "u" ++ signature, signature := signature }

/-- JS `String.prototype.split('.')`: split into segments, keeping empties. -/
def splitDotAux : List Char → List Char → List String
  | [], acc => [String.mk acc.reverse]
  | c :: rest, acc =>
    if c = '.' then String.mk acc.reverse :: splitDotAux rest []
    else splitDotAux rest (c :: acc)

def jsSplitDot (s : String) : List String := splitDotAux s.data []

/-- `s.startsWith('u')`. -/
def jsStartsWithU (s : String) : Bool :=
  match s.data with
  | c :: _ => c = 'u'
  | [] => false

/-- Numeric value of a hex digit. -/
def hexVal (c : Char) : Option Nat :=
  if '0' ≤ c ∧ c ≤ '9' then some (c.toNat - 48)
  else if 'a' ≤ c ∧ c ≤ 'f' then some (c.toNat - 87)
  else if 'A' ≤ c ∧ c ≤ 'F' then some (c.toNat - 55)
  else none

/-- JSON single-character escapes. -/
def jsonUnescapeChar (e : Char) : Option Char :=
  if e = '"' then some '"'
  else if e = '\\' then some '\\'
  else if e = '/' then some '/'
  else if e = 'b' then some (Char.ofNat 8)
  else if e = 'f' then some (Char.ofNat 12)
  else if e = 'n' then some '\n'
  else if e = 'r' then some (Char.ofNat 13)
  else if e = 't' then some '\t'
  else none

/-- Body of a JSON string literal (after the opening quote): returns the
decoded characters and the remainder after the closing quote. Raw control
characters are invalid JSON. -/
def parseJsonStringChars : List Char → Option (List Char × List Char)
  | [] => none
  | c :: rest =>
    if c = '"' then some ([], rest)
    else if c = '\\' then
      match rest with
      | [] => none
      | e :: rest2 =>
        if e = 'u' then
          match rest2 with
          | h1 :: h2 :: h3 :: h4 :: rest3 =>
            match hexVal h1, hexVal h2, hexVal h3, hexVal h4 with
            | some a, some b, some c2, some d =>
              match parseJsonStringChars rest3 with
              | some (cs, rem) =>
                some (Char.ofNat (((a * 16 + b) * 16 + c2) * 16 + d) :: cs, rem)
              | none => none
            | _, _, _, _ => none
          | _ => none
        else
          match jsonUnescapeChar e with
          | some u =>
            match parseJsonStringChars rest2 with
            | some (cs, rem) => some (u :: cs, rem)
            | none => none
          | none => none
    else if c.toNat < 32 then none
    else
      match parseJsonStringChars rest with
      | some (cs, rem) => some (c :: cs, rem)
      | none => none

/-- Skip JSON whitespace. -/
def skipJsonWs : List Char → List Char
  | [] => []
  | c :: rest =>
    if c = ' ' ∨ c = '\t' ∨ c = '\n' ∨ c.toNat = 13 then skipJsonWs rest
    else c :: rest

/-- Longest digit run. -/
def takeDigits : List Char → List Char × List Char
  | [] => ([], [])
  | c :: rest =>
    if c.isDigit then
      let p := takeDigits rest
      (c :: p.1, p.2)
    else ([], c :: rest)

def digitsToNat (ds : List Char) : Nat :=
  ds.foldl (fun acc c => acc * 10 + (c.toNat - 48)) 0

/-- JSON integer (the only numeric form the minting path produces). -/
def parseJsonInt : List Char → Option (Int × List Char)
  | '-' :: rest =>
    let p := takeDigits rest
    if p.1.isEmpty then none else some (-(digitsToNat p.1 : Int), p.2)
  | l =>
    let p := takeDigits l
    if p.1.isEmpty then none else some ((digitsToNat p.1 : Int), p.2)

/-- `JSON.parse` restricted to the exact shape `createPushToken` emits, a
two-element array `["event",expires]`; any input not of that shape (in
particular any input whose first character is not `[`) fails, exactly as
`JSON.parse` throws on it. -/
def jsonParsePair (s : String) : Option (String × Int) :=
  match skipJsonWs s.data with
  | '[' :: l1 =>
    match skipJsonWs l1 with
    | '"' :: l2 =>
      match parseJsonStringChars l2 with
      | some (cs, l3) =>
        match skipJsonWs l3 with
        | ',' :: l4 =>
          match parseJsonInt (skipJsonWs l4) with
          | some (n, l5) =>
            match skipJsonWs l5 with
            | ']' :: l6 => if (skipJsonWs l6).isEmpty then some (String.mk cs, n) else none
            | _ => none
          | none => none
        | _ => none
      | none => none
    | _ => none
  | _ => none

/-- Causes recorded by `verifyPushToken` before it wraps them in the outer
'Invalid push token.' OperationError. `typeErrorUndefined` stands for a JS
TypeError raised by calling a method on `undefined` or by
`Buffer.from(undefined)`. -/
inductive VerifyFailure where
  | typeErrorUndefined
  | invalidFormat
  | jsonParseError
  | expired
  | eventMismatch
  | signatureMismatch
deriving DecidableEq

/-- Max clock skew constant from `src/lib/pollers.js`. Note it is already a
millisecond count. -/
def MAX_CLOCK_SKEW : Int := 1000 * 60 * 5

/-- `_compareTime` (lines 605-612): its comment says `maxClockSkew` is in
seconds and multiplies by 1000, although the default `MAX_CLOCK_SKEW` is
already in milliseconds. -/
def compareTime (t1 t2 maxClockSkew : Int) : Int :=
  if |t1 - t2| < maxClockSkew * 1000 then 0
  else if t1 < t2 then -1 else 1

/-- `verifyPushToken({pushToken, expectedEvent})` (lines 493-553).
Mirrors the source faithfully, including:
the payload is parsed via `JSON.parse(Buffer.from(mbPayload.slice(0)))` —
`slice(0)` keeps the whole string, so the multibase `u` prefix is never
stripped and the payload is never base64url-decoded (`Buffer.from` on a
string is a UTF-8 round-trip);
the signature check destructures `signature` from the un-awaited Promise
returned by `createPushToken`, which yields `undefined`, so `Buffer.from`
throws a TypeError before any comparison. Any failure is wrapped by the
source as the opaque 'Invalid push token.' error; the `Except.error` payload
records the inner cause. -/
def verifyPushToken (pushToken : String) (expectedEvent : Option String)
    (now : Int) : Except VerifyFailure (String × Int) :=
  match jsSplitDot pushToken with
  | mbPayload :: mbSignature :: _ =>
    if jsStartsWithU mbPayload && jsStartsWithU mbSignature then
      match jsonParsePair mbPayload with
      | none => Except.error VerifyFailure.jsonParseError
      | some (event, expires) =>
        if compareTime now expires MAX_CLOCK_SKEW = 1 then
          Except.error VerifyFailure.expired
        else if ¬ expectedEvent = some event then
          Except.error VerifyFailure.eventMismatch
        else
          match (none : Option String) with
          | none => Except.error VerifyFailure.typeErrorUndefined
          | some sig =>
            if String.mk (mbSignature.data.drop 1) = sig then Except.ok (event, expires)
            else Except.error VerifyFailure.signatureMismatch
    else Except.error VerifyFailure.invalidFormat
  | _ => Except.error VerifyFailure.typeErrorUndefined

/-! ## Watch store (`src/lib/watches.js`) and scheduler (`src/lib/watchers.js`) -/

/-- `meta.watcherLock`: an advisory lease `(id, expires)`. -/
structure WatcherLock where
  id : String
  expires : Int
deriving DecidableEq

/-- The `watch` subdocument of a watch record. `sequence` is an `Int` because
the CAS query compares against `watch.sequence - 1` with JS arithmetic. -/
structure Watch (α : Type) where
  id : String
  sequence : Int
  watcher : String
  value : Option α
  expires : Int
deriving DecidableEq

/-- The `meta` subdocument. -/
structure WatchMeta where
  created : Int
  updated : Int
  watcherLock : Option WatcherLock
deriving DecidableEq

/-- A stored watch record. -/
structure WatchRecord (α : Type) where
  watch : Watch α
  meta : WatchMeta
deriving DecidableEq

/-- Errors thrown by `watches.create` and `watchers.watch`. -/
inductive WatchApiError where
  | duplicate
  | constraintTtl
  | watcherNotRegistered
deriving DecidableEq

/-- The options object `watchers.watch` passes to `watches.create`
(`src/lib/watchers.js` line 90): it includes `value`, but `create`
destructures only `id`, `watcher` and `expires`, dropping `value`. -/
structure CreateWatchOptions (α : Type) where
  id : String
  watcher : String
  expires : Int
  value : Option α

/-- `watches.create` (`src/lib/watches.js` lines 60-91): inserts a fresh
record with `sequence: 0` and `value: null`; the `value` field of the passed
options is not read. The unique index on `watch.id` makes a duplicate `id`
throw `DuplicateError`. The store is modeled as a list of records; insertion
prepends. -/
def watchesCreate {α : Type} (store : List (WatchRecord α))
    (opts : CreateWatchOptions α) (now : Int) :
    Except WatchApiError (List (WatchRecord α)) :=
  let w : Watch α :=
    { id := opts.id, sequence := 0, watcher := opts.watcher, value := none,
      expires := opts.expires }
  if store.any (fun r => r.watch.id == opts.id) then
    Except.error WatchApiError.duplicate
  else
    Except.ok ({ watch := w, meta := { created := now, updated := now, watcherLock := none } } :: store)

def ONE_HOUR_IN_SECONDS : Int := 60 * 60

/-- `watchers.watch({id, watcher, value, ttl})` (`src/lib/watchers.js` lines
69-91): rejects `ttl` above one hour, rejects an unregistered watcher name,
then calls `watches.create` passing `value` along (which `create` ignores).
`registered` models the `WATCHERS` registry keys. -/
def watchersWatch {α : Type} (registered : List String)
    (store : List (WatchRecord α)) (id watcher : String) (value : Option α)
    (ttl : Int) (now : Int) : Except WatchApiError (List (WatchRecord α)) :=
  if ttl > ONE_HOUR_IN_SECONDS then Except.error WatchApiError.constraintTtl
  else if ¬ registered.contains watcher then
    Except.error WatchApiError.watcherNotRegistered
  else
    watchesCreate store
      { id := id, watcher := watcher, expires := now + ttl * 1000, value := value } now

/-- Details carried by the `InvalidStateError` thrown by `watches.update`. -/
structure InvalidStateDetails where
  expected : Int
deriving DecidableEq

/-- `updateOne` on the query
`watch.id = w.id AND watch.sequence = w.sequence - 1` with
`$set: {watch: w, meta.updated: now}`: replaces the first matching record
and reports the number of records actually modified (MongoDB's
`modifiedCount`, which counts only documents that changed). -/
def updateOneWatch {α : Type} [DecidableEq α] (w : Watch α) (now : Int) :
    List (WatchRecord α) → List (WatchRecord α) × Nat
  | [] => ([], 0)
  | r :: rest =>
    if r.watch.id = w.id ∧ r.watch.sequence = w.sequence - 1 then
      let r2 : WatchRecord α :=
        { watch := w,
          meta := { created := r.meta.created, updated := now,
                    watcherLock := r.meta.watcherLock } }
      (r2 :: rest, if r2 = r then 0 else 1)
    else
      let p := updateOneWatch w now rest
      (r :: p.1, p.2)

/-- `watches.update({watch})` (`src/lib/watches.js` lines 170-204): CAS
replace; when `modifiedCount` is 0 it throws `InvalidStateError` with
`details.expected = watch.sequence - 1`. -/
def watchesUpdate {α : Type} [DecidableEq α] (store : List (WatchRecord α))
    (w : Watch α) (now : Int) :
    Except InvalidStateDetails (List (WatchRecord α)) :=
  let p := updateOneWatch w now store
  if p.2 > 0 then Except.ok p.1
  else Except.error { expected := w.sequence - 1 }

/-- The `mark` query (`src/lib/watches.js` lines 255-271). Without an `id` it
is `$or: [ meta.watcherLock: null, meta.watcherLock.expires: {$gt: now} ]`:
records whose lock is absent, or whose lock expiry is still in the FUTURE.
With an `id` it matches that record unconditionally. -/
def markQuery {α : Type} (idOpt : Option String) (now : Int)
    (r : WatchRecord α) : Bool :=
  match idOpt with
  | some i => r.watch.id == i
  | none =>
    match r.meta.watcherLock with
    | none => true
    | some l => decide (l.expires > now)

/-- `watches.mark` (`src/lib/watches.js` lines 240-282): `updateMany` with
`$set: {meta.updated: now, meta.watcherLock: watcherLock}` over `markQuery`.
The `{limit}` option passed to `updateMany` is not a MongoDB option and is
ignored, so every matching record is updated. Returns the updated store and
the modified count. (Setting a fresh lock always changes a matching record.) -/
def watchesMark {α : Type} (store : List (WatchRecord α))
    (watcherLock : WatcherLock) (idOpt : Option String) (now : Int) :
    List (WatchRecord α) × Nat :=
  let store2 := store.map fun r =>
    if markQuery idOpt now r then
      { watch := r.watch,
        meta := { created := r.meta.created, updated := now,
                  watcherLock := some watcherLock } }
    else r
  (store2, (store.filter (markQuery idOpt now)).length)

/-- `mark` returns `result.modifiedCount > 0`: a Boolean, not a count. -/
def markReturn (modifiedCount : Nat) : Bool := decide (modifiedCount > 0)

/-- Modelled from the spec: the eligibility predicate the specification
states for `mark` — a record is eligible exactly when its lock is absent or
its lock's expiry is in the past (lease expired). Stated here only for
comparison with `markQuery`, which is the code's predicate. -/
def specEligible {α : Type} (now : Int) (r : WatchRecord α) : Bool :=
  match r.meta.watcherLock with
  | none => true
  | some l => decide (l.expires ≤ now)

/-- JS property access `.marked` on the Boolean returned by `watches.mark`
(`const {marked} = await watches.mark(...)`, `src/lib/watchers.js` line 102):
a Boolean primitive has no `marked` property, so the binding is `undefined`
whatever the Boolean is. -/
def destructureMarked (markReturnValue : Bool) : Option Int :=
  match markReturnValue with
  | _ => none

/-- The reschedule-delay computation of one `_runWatchers` sweep
(`src/lib/watchers.js` lines 93-109): `rescheduleTime` is a local starting at
1000 ms on every sweep; `marked === limit` gives 0 and `marked === 0` doubles
the local baseline. Since `marked` is `undefined` (see `destructureMarked`),
neither strict comparison can hold. -/
def runWatchersRescheduleTime (markReturnValue : Bool) : Nat :=
  let limit : Int := 10
  let marked : Option Int := destructureMarked markReturnValue
  let rescheduleTime : Nat := 1000
  if marked = some limit then 0
  else if marked = some 0 then rescheduleTime * 2
  else rescheduleTime

/-! ## Poll coalescer (`src/lib/poll.js`) -/

/-- Fifteen-minute max TTL for poll results. -/
def MAX_TTL : Nat := 1000 * 60 * 15

/-- Default TTL of the poll result cache (`config.js`: `caches.pollResult.ttl`). -/
def DEFAULT_RESULT_TTL : Nat := 30 * 1000

/-- A poll result `{id, sequence, mutable, value}`. -/
structure PollResult (α : Type) where
  id : String
  sequence : Nat
  mutable : Bool
  value : α
deriving DecidableEq

/-- An entry of `POLL_RESULT_CACHE` (an `lru-cache`): the stored result, its
per-entry TTL and the time it was written. The entry is live while
`now < setAt + ttl`; `get` returns nothing for an expired entry. LRU
capacity eviction is not modeled: the claims speak of an entry's behavior
while it lives. -/
structure ResultEntry (α : Type) where
  result : PollResult α
  ttl : Nat
  setAt : Nat
deriving DecidableEq

/-- The poll result cache, as an association list keyed by resource id. -/
abbrev ResultCache (α : Type) := List (String × ResultEntry α)

def cacheLookup {α : Type} : ResultCache α → String → Option (ResultEntry α)
  | [], _ => none
  | (k, e) :: rest, id => if k = id then some e else cacheLookup rest id

/-- `POLL_RESULT_CACHE.get(id)`: the live entry's result, if any. -/
def cacheGet {α : Type} (cache : ResultCache α) (id : String) (now : Nat) :
    Option (PollResult α) :=
  match cacheLookup cache id with
  | some e => if now < e.setAt + e.ttl then some e.result else none
  | none => none

/-- `POLL_RESULT_CACHE.set(id, r, {ttl})`: writes the entry, restarting its
TTL clock at `now`. -/
def cacheSet {α : Type} (cache : ResultCache α) (id : String) (r : PollResult α)
    (ttl now : Nat) : ResultCache α :=
  (id, { result := r, ttl := ttl, setAt := now }) ::
    cache.filter (fun p => !(p.1 == id))

/-- What a poller returns: `{mutable, value}`. -/
structure PollerResponse (α : Type) where
  mutable : Bool
  value : α

/-- Result of `_getUncachedPollResult`: the produced result, the updated
result cache, and whether the poller function was invoked. -/
structure UncachedOutcome (α : Type) where
  result : PollResult α
  cache : ResultCache α
  pollerInvoked : Bool

/-- `_getUncachedPollResult({id, poller})` (`src/lib/poll.js` lines 137-171).
The JS `===` comparison of `value` against `currentResult.value` is embedded
as equality on `α`. The poller is a pure function of the current result here;
its errors propagate in the source and leave the cache untouched, which the
claims do not exercise. -/
def getUncachedPollResult {α : Type} [DecidableEq α] (cache : ResultCache α)
    (id : String) (poller : Option (PollResult α) → PollerResponse α)
    (now : Nat) : UncachedOutcome α :=
  match cacheGet cache id now with
  | some currentResult =>
    if currentResult.mutable = false then
      { result := currentResult,
        cache := cacheSet cache id currentResult MAX_TTL now,
        pollerInvoked := false }
    else
      let resp := poller (some currentResult)
      let result :=
        if resp.value = currentResult.value ∧ resp.mutable = currentResult.mutable then
          currentResult
        else
          { id := id, sequence := currentResult.sequence + 1,
            mutable := resp.mutable, value := resp.value }
      let ttl := if resp.mutable = false then MAX_TTL else DEFAULT_RESULT_TTL
      { result := result, cache := cacheSet cache id result ttl now,
        pollerInvoked := true }
  | none =>
    let resp := poller none
    let result : PollResult α :=
      { id := id, sequence := 1, mutable := resp.mutable, value := resp.value }
    let ttl := if resp.mutable = false then MAX_TTL else DEFAULT_RESULT_TTL
    { result := result, cache := cacheSet cache id result ttl now,
      pollerInvoked := true }

/-- Observable outcome of one `poll` call. -/
inductive PollOutcome (α : Type) where
  | result (r : PollResult α)
  | quotaExceeded
deriving DecidableEq

/-- `poll({id, poller, useCache})` (`src/lib/poll.js` lines 82-107) for the
caller that executes the in-flight computation. `inflightSize`,
`inflightMax` and `inflightHasId` are `POLL_CACHE.cache.size`,
`POLL_CACHE.cache.max` and `POLL_CACHE.has(id)`. Returns the outcome, the
result cache afterwards, and whether the poller was invoked. Coalescing of
concurrent callers is modeled separately by `runCoal`. -/
def poll {α : Type} [DecidableEq α] (useCache : Bool) (cache : ResultCache α)
    (id : String) (poller : Option (PollResult α) → PollerResponse α)
    (now : Nat) (inflightSize inflightMax : Nat) (inflightHasId : Bool) :
    PollOutcome α × ResultCache α × Bool :=
  match (if useCache then cacheGet cache id now else none) with
  | some r => (PollOutcome.result r, cache, false)
  | none =>
    if inflightSize = inflightMax ∧ inflightHasId = false then
      (PollOutcome.quotaExceeded, cache, false)
    else
      let o := getUncachedPollResult cache id poller now
      (PollOutcome.result o.result, o.cache, o.pollerInvoked)

/-! ## Single-flight coalescing of concurrent `poll` callers -/

/-- An in-flight `POLL_CACHE` entry: the resource key and the callers
awaiting the shared pending computation. -/
structure InflightEntry where
  key : String
  callers : List Nat
deriving DecidableEq

/-- Process state of the in-flight cache: current entries and the
`(caller, id, outcome)` deliveries made when entries settled. -/
structure CoalState (α : Type) where
  inflight : List InflightEntry
  delivered : List (Nat × String × α)

/-- Interleaving events: a caller invoking `poll` past the cache/quota
checks, and an in-flight computation settling (fulfilling or rejecting). -/
inductive CoalEvent (α : Type) where
  | call (caller : Nat) (id : String)
  | settle (id : String) (outcome : α)

/-- Add a caller to the existing in-flight entry for `id`. -/
def joinEntry (c : Nat) (id : String) (l : List InflightEntry) : List InflightEntry :=
  l.map fun en =>
    if en.key == id then { key := en.key, callers := c :: en.callers } else en

/-- Modelled from the spec: the single-flight contract of
`POLL_CACHE.memoize({key: id, fn, options: {disposeOnSettle: true}})` — the
`@digitalbazaar/lru-memoize` dependency is outside this repository. A call
whose key is in flight joins that entry; otherwise it inserts a fresh entry
(one new computation). When the computation settles, every joined caller
receives the one outcome and the entry is disposed. -/
def coalStep {α : Type} (s : CoalState α) (e : CoalEvent α) : CoalState α :=
  match e with
  | CoalEvent.call c id =>
    if s.inflight.any (fun en => en.key == id) then
      { inflight := joinEntry c id s.inflight, delivered := s.delivered }
    else
      { inflight := { key := id, callers := [c] } :: s.inflight,
        delivered := s.delivered }
  | CoalEvent.settle id o =>
    match s.inflight.find? (fun en => en.key == id) with
    | some en =>
      { inflight := s.inflight.filter (fun en2 => !(en2.key == id)),
        delivered := en.callers.map (fun c => (c, id, o)) ++ s.delivered }
    | none => s

def initCoal (α : Type) : CoalState α := { inflight := [], delivered := [] }

/-- The state after a sequence of events from the initial (empty) state. -/
def runCoal {α : Type} (es : List (CoalEvent α)) : CoalState α :=
  es.foldl coalStep (initCoal α)

/-- The single-flight invariant: in-flight keys are pairwise distinct, i.e.
at most one pending computation per resource id. -/
def CoalInv {α : Type} (s : CoalState α) : Prop :=
  (s.inflight.map InflightEntry.key).Nodup

end BedrockNotify

namespace BedrockNotify

/-- C9: the claim says `createPushToken({event})` with `expires` omitted
succeeds with an embedded expiry of creation time plus 20 minutes. The code
instead runs `assert.date(expires)` before applying the default, so every
call without `expires` throws an AssertionError and the
`new Date(now + TWENTY_MINUTES)` default is unreachable. -/
theorem createPushToken_requires_expires (hs256 : String → String)
    (event : String) (now : Int) :
    createPushToken hs256 event none now =
      Except.error CreateTokenError.assertionError := rfl

/-- C1: the claim says verifying a freshly minted token succeeds while the
current time is within the expiry plus the clock skew. Evaluating the code on
a fresh token at its own creation instant (well inside the validity window):
`JSON.parse` is applied to the un-decoded multibase payload, which still
carries its `u` prefix, so parsing throws and verification is rejected as an
invalid push token instead of succeeding. -/
theorem verifyPushToken_rejects_fresh_token :
    (match createPushToken (fun _ => "MOCKSIGNATURE") "exchangeUpdated"
        (some 1700000000000) 1700000000000 with
     | Except.ok tp =>
       verifyPushToken tp.token (some "exchangeUpdated") 1700000000000
     | Except.error _ => Except.ok ("", 0)) =
    Except.error VerifyFailure.jsonParseError := by
  rfl

/-- C4: the claim says only records whose lock is absent or already expired
are marked, and that an unexpired lease held by another worker is never
re-marked. Evaluating the code's `mark` query at time 1000000 on a record
whose lease expired at 999000 and on a record whose lease is live until
1005000: the query skips the expired-lease record and re-marks the
live-lease record — the exact inverse of the claimed eligibility
(`specEligible`). -/
theorem mark_query_inverts_lease_eligibility :
    markQuery (α := Nat) none 1000000
      { watch := { id := "A", sequence := 0, watcher := "w", value := none,
                   expires := 9000000 },
        meta := { created := 0, updated := 0,
                  watcherLock := some { id := "worker1", expires := 999000 } } } = false ∧
    specEligible (α := Nat) 1000000
      { watch := { id := "A", sequence := 0, watcher := "w", value := none,
                   expires := 9000000 },
        meta := { created := 0, updated := 0,
                  watcherLock := some { id := "worker1", expires := 999000 } } } = true ∧
    markQuery (α := Nat) none 1000000
      { watch := { id := "B", sequence := 0, watcher := "w", value := none,
                   expires := 9000000 },
        meta := { created := 0, updated := 0,
                  watcherLock := some { id := "worker2", expires := 1005000 } } } = true ∧
    specEligible (α := Nat) 1000000
      { watch := { id := "B", sequence := 0, watcher := "w", value := none,
                   expires := 9000000 },
        meta := { created := 0, updated := 0,
                  watcherLock := some { id := "worker2", expires := 1005000 } } } = false ∧
    (watchesMark (α := Nat)
      [{ watch := { id := "B", sequence := 0, watcher := "w", value := none,
                    expires := 9000000 },
         meta := { created := 0, updated := 0,
                   watcherLock := some { id := "worker2", expires := 1005000 } } }]
      { id := "worker3", expires := 1005000 } none 1000000).1 =
      [{ watch := { id := "B", sequence := 0, watcher := "w", value := none,
                    expires := 9000000 },
         meta := { created := 0, updated := 1000000,
                   watcherLock := some { id := "worker3", expires := 1005000 } } }] := by
  refine ⟨rfl, rfl, rfl, rfl, rfl⟩

/-- C5: the claim says each sweep obtains the number of marked records and
derives the next delay from it (0 ms at the limit, exponential back-off on
empty sweeps). `watches.mark` returns a Boolean, destructuring `{marked}`
from it yields `undefined`, and `rescheduleTime` is a local reset to 1 s at
the start of every sweep — so the computed delay is 1000 ms no matter how
many records the mark call modified. -/
theorem runWatchers_reschedule_always_one_second
    (store : List (WatchRecord Nat)) (lock : WatcherLock) (now : Int) :
    destructureMarked (markReturn (watchesMark store lock none now).2) = none ∧
    runWatchersRescheduleTime (markReturn (watchesMark store lock none now).2) = 1000 :=
  ⟨rfl, rfl⟩

theorem updateOneWatch_no_match {α : Type} [DecidableEq α] (w : Watch α)
    (now : Int) :
    ∀ store : List (WatchRecord α),
      (∀ r ∈ store, ¬ (r.watch.id = w.id ∧ r.watch.sequence = w.sequence - 1)) →
      updateOneWatch w now store = (store, 0)
  | [], _ => rfl
  | r :: rest, h => by
    have hr := h r (List.mem_cons_self r rest)
    have ih := updateOneWatch_no_match w now rest
      (fun r2 hr2 => h r2 (List.mem_cons_of_mem r hr2))
    simp only [updateOneWatch, if_neg hr, ih]

theorem updateOneWatch_found {α : Type} [DecidableEq α] (w : Watch α)
    (now : Int) :
    ∀ store : List (WatchRecord α),
      (∃ r ∈ store, r.watch.id = w.id ∧ r.watch.sequence = w.sequence - 1) →
      (updateOneWatch w now store).2 = 1 ∧
      ∃ r2 ∈ (updateOneWatch w now store).1, r2.watch = w
  | [], h => absurd h (by simp)
  | r :: rest, h => by
    by_cases hr : r.watch.id = w.id ∧ r.watch.sequence = w.sequence - 1
    · have hneq :
          ({ watch := w,
             meta := { created := r.meta.created, updated := now,
                       watcherLock := r.meta.watcherLock } } : WatchRecord α) ≠ r := by
        intro he
        have hseq := congrArg (fun rec : WatchRecord α => rec.watch.sequence) he
        simp only at hseq
        omega
      constructor
      · simp only [updateOneWatch, if_pos hr, if_neg hneq]
      · refine ⟨{ watch := w,
                  meta := { created := r.meta.created, updated := now,
                            watcherLock := r.meta.watcherLock } }, ?_, rfl⟩
        simp only [updateOneWatch, if_pos hr]
        exact List.mem_cons_self _ _
    · have hrest : ∃ r2 ∈ rest, r2.watch.id = w.id ∧ r2.watch.sequence = w.sequence - 1 := by
        rcases h with ⟨r2, hmem, hprop⟩
        rcases List.mem_cons.mp hmem with he | hm
        · exact absurd (he ▸ hprop) hr
        · exact ⟨r2, hm, hprop⟩
      have ih := updateOneWatch_found w now rest hrest
      constructor
      · simp only [updateOneWatch, if_neg hr]
        exact ih.1
      · rcases ih.2 with ⟨r2, hm, hw⟩
        refine ⟨r2, ?_, hw⟩
        simp only [updateOneWatch, if_neg hr]
        exact List.mem_cons_of_mem r hm

/-- C6: `watches.update({watch})` succeeds, storing the new watch, exactly
when a record with the same `watch.id` and stored sequence equal to
`watch.sequence - 1` exists (the CAS); otherwise it throws `InvalidState`
with `details.expected = watch.sequence - 1` and the store is unchanged. -/
theorem watchesUpdate_cas {α : Type} [DecidableEq α]
    (store : List (WatchRecord α)) (w : Watch α) (now : Int) :
    ((∃ r ∈ store, r.watch.id = w.id ∧ r.watch.sequence = w.sequence - 1) →
      ∃ store2, watchesUpdate store w now = Except.ok store2 ∧
        ∃ r2 ∈ store2, r2.watch = w) ∧
    ((¬ ∃ r ∈ store, r.watch.id = w.id ∧ r.watch.sequence = w.sequence - 1) →
      watchesUpdate store w now = Except.error { expected := w.sequence - 1 } ∧
      (updateOneWatch w now store).1 = store) := by
  constructor
  · intro h
    have hf := updateOneWatch_found w now store h
    refine ⟨(updateOneWatch w now store).1, ?_, hf.2⟩
    simp only [watchesUpdate, hf.1]
    rfl
  · intro h
    push_neg at h
    have hn := updateOneWatch_no_match w now store
      (fun r hr => by
        intro hc
        exact absurd hc.2 (h r hr hc.1))
    constructor
    · simp only [watchesUpdate, hn]
      rfl
    · simp only [hn]

/-- Witness for `watchesUpdate_cas` at a concrete store and watch. -/
theorem watchesUpdate_cas_witness :
    ∃ store2,
      watchesUpdate (α := Nat)
        [{ watch := { id := "X", sequence := 4, watcher := "w", value := none,
                      expires := 0 },
           meta := { created := 0, updated := 0, watcherLock := none } }]
        { id := "X", sequence := 5, watcher := "w", value := some 7,
          expires := 0 } 100 = Except.ok store2 ∧
      ∃ r2 ∈ store2, r2.watch =
        { id := "X", sequence := 5, watcher := "w", value := some 7,
          expires := 0 } := by
  apply (watchesUpdate_cas _ _ _).1
  exact ⟨_, List.mem_singleton_self _, rfl, by decide⟩

/-- C10: a successful `watchers.watch({id, watcher, value, ttl})` persists a
record with `watch.sequence = 0` and `watch.value = null` regardless of the
`value` option: `watchers.watch` forwards `value` to `watches.create`, whose
parameter destructuring drops it before the record is built. -/
theorem watch_initial_record_drops_value {α : Type} (registered : List String)
    (store : List (WatchRecord α)) (id watcher : String) (value : Option α)
    (ttl now : Int) (store2 : List (WatchRecord α))
    (h : watchersWatch registered store id watcher value ttl now = Except.ok store2) :
    ∃ rec : WatchRecord α, store2 = rec :: store ∧
      rec.watch.sequence = 0 ∧ rec.watch.value = none ∧
      rec.watch.id = id ∧ rec.watch.watcher = watcher := by
  unfold watchersWatch at h
  split at h
  · cases h
  · split at h
    · cases h
    · unfold watchesCreate at h
      split at h
      · cases h
      · refine ⟨{ watch := { id := id, sequence := 0, watcher := watcher,
                             value := none, expires := now + ttl * 1000 },
                  meta := { created := now, updated := now,
                            watcherLock := none } }, ?_, rfl, rfl, rfl, rfl⟩
        injection h with h1
        exact h1.symm

/-- Witness for `watch_initial_record_drops_value`: a watch created with an
initial `value` of `some 5` is stored with `value = none` and `sequence = 0`. -/
theorem watch_initial_record_drops_value_witness :
    ∃ rec : WatchRecord Nat,
      ({ watch := { id := "X", sequence := 0, watcher := "w", value := none,
                    expires := 300000 },
         meta := { created := 0, updated := 0, watcherLock := none } } :
         WatchRecord Nat) :: [] = rec :: ([] : List (WatchRecord Nat)) ∧
      rec.watch.sequence = 0 ∧ rec.watch.value = none ∧
      rec.watch.id = "X" ∧ rec.watch.watcher = "w" := by
  exact watch_initial_record_drops_value ["w"] [] "X" "w" (some 5) 300 0 _ rfl

theorem cacheLookup_cacheSet_same {α : Type} (cache : ResultCache α)
    (id : String) (r : PollResult α) (ttl now : Nat) :
    cacheLookup (cacheSet cache id r ttl now) id =
      some { result := r, ttl := ttl, setAt := now } := by
  simp [cacheSet, cacheLookup]

/-- C8: `poll` throws `QuotaExceeded` exactly when no live cached result is
returned (the caller opted out of the cache or no live entry exists), the
in-flight cache is at its maximum size, and no entry for `id` is in flight;
in particular a call whose `id` is already in flight joins it and never
fails with `QuotaExceeded`. -/
theorem poll_quota_exceeded_iff {α : Type} [DecidableEq α] (useCache : Bool)
    (cache : ResultCache α) (id : String)
    (poller : Option (PollResult α) → PollerResponse α) (now : Nat)
    (inflightSize inflightMax : Nat) (inflightHasId : Bool) :
    ((poll useCache cache id poller now inflightSize inflightMax inflightHasId).1 =
        PollOutcome.quotaExceeded ↔
      (useCache = true → cacheGet cache id now = none) ∧
        inflightSize = inflightMax ∧ inflightHasId = false) ∧
    (inflightHasId = true →
      (poll useCache cache id poller now inflightSize inflightMax inflightHasId).1 ≠
        PollOutcome.quotaExceeded) := by
  cases useCache with
  | false =>
    by_cases hq : inflightSize = inflightMax ∧ inflightHasId = false
    · simp [poll, hq, hq.1, hq.2]
    · simp [poll, hq]
  | true =>
    cases hget : cacheGet cache id now with
    | some r => simp [poll, hget]
    | none =>
      by_cases hq : inflightSize = inflightMax ∧ inflightHasId = false
      · simp [poll, hget, hq, hq.1, hq.2]
      · simp [poll, hget, hq]

/-- Witness for `poll_quota_exceeded_iff`: a full in-flight cache with no
entry for the id makes an uncached `poll` fail with `QuotaExceeded`. -/
theorem poll_quota_exceeded_iff_witness :
    (poll false ([] : ResultCache Nat) "X"
        (fun _ => { mutable := true, value := 0 }) 0 10000 10000 false).1 =
      PollOutcome.quotaExceeded := by
  exact (poll_quota_exceeded_iff false [] "X"
      (fun _ => { mutable := true, value := 0 }) 0 10000 10000 false).1.mpr
    ⟨fun h => Bool.noConfusion h, rfl, rfl⟩

/-- C3 counterexample: the claim says every subsequent poll for a terminal
entry refreshes the entry's TTL to `MAX_TTL`. A `useCache=true` poll at time
60000 on a terminal entry written at time 0 returns the entry but leaves the
cache — and hence the entry's expiry instant `setAt + ttl` — completely
unchanged: the entry still expires at `0 + MAX_TTL`, not at
`60000 + MAX_TTL` as a refresh would give. -/
theorem terminal_poll_no_ttl_refresh :
    (poll true
        [("X", { result := { id := "X", sequence := 1, mutable := false,
                             value := (0 : Nat) },
                 ttl := MAX_TTL, setAt := 0 })] "X"
        (fun _ => { mutable := true, value := 5 }) 60000 0 10000 false).2.1 =
      [("X", { result := { id := "X", sequence := 1, mutable := false,
                           value := (0 : Nat) },
               ttl := MAX_TTL, setAt := 0 })] ∧
    (0 + MAX_TTL : Nat) ≠ 60000 + MAX_TTL := by
  constructor
  · rfl
  · decide

/-- C3 (amended): once the result cache holds a terminal
(`mutable = false`) live entry for `id`, a poll never overwrites it with a
mutable result and never invokes the poller: the call either returns the
terminal result directly from the cache (`useCache = true`, entry and TTL
untouched), fails the quota check, or takes the uncached path, which
re-returns the terminal result and refreshes the entry's TTL to `MAX_TTL`. -/
theorem terminal_result_latched {α : Type} [DecidableEq α] (useCache : Bool)
    (cache : ResultCache α) (id : String)
    (poller : Option (PollResult α) → PollerResponse α) (now : Nat)
    (inflightSize inflightMax : Nat) (inflightHasId : Bool) (r : PollResult α)
    (hlive : cacheGet cache id now = some r) (hterm : r.mutable = false) :
    (poll useCache cache id poller now inflightSize inflightMax inflightHasId).2.2 =
      false ∧
    (∀ r2, (poll useCache cache id poller now inflightSize inflightMax
        inflightHasId).1 = PollOutcome.result r2 → r2 = r) ∧
    cacheGet (poll useCache cache id poller now inflightSize inflightMax
        inflightHasId).2.1 id now = some r ∧
    (useCache = true →
      (poll useCache cache id poller now inflightSize inflightMax
        inflightHasId).2.1 = cache) ∧
    (useCache = false →
      (poll useCache cache id poller now inflightSize inflightMax
        inflightHasId).1 ≠ PollOutcome.quotaExceeded →
      cacheLookup (poll useCache cache id poller now inflightSize inflightMax
          inflightHasId).2.1 id =
        some { result := r, ttl := MAX_TTL, setAt := now }) := by
  cases useCache with
  | true =>
    have hpoll : poll true cache id poller now inflightSize inflightMax
        inflightHasId = (PollOutcome.result r, cache, false) := by
      simp only [poll, if_true, hlive]
    rw [hpoll]
    refine ⟨rfl, ?_, hlive, fun _ => rfl, fun h => Bool.noConfusion h⟩
    intro r2 h2
    injection h2 with h3
    exact h3.symm
  | false =>
    by_cases hq : inflightSize = inflightMax ∧ inflightHasId = false
    · have hpoll : poll false cache id poller now inflightSize inflightMax
          inflightHasId = (PollOutcome.quotaExceeded, cache, false) := by
        simp only [poll]
        rw [if_pos hq, if_neg (by decide : ¬ ((false : Bool) = true))]
      rw [hpoll]
      exact ⟨rfl, fun r2 h2 => PollOutcome.noConfusion h2, hlive,
        fun h => Bool.noConfusion h, fun _ hne => absurd rfl hne⟩
    · have huncached :
          getUncachedPollResult cache id poller now =
            { result := r, cache := cacheSet cache id r MAX_TTL now,
              pollerInvoked := false } := by
        simp only [getUncachedPollResult, hlive]
        rw [if_pos hterm]
      have hpoll : poll false cache id poller now inflightSize inflightMax
          inflightHasId =
          (PollOutcome.result r, cacheSet cache id r MAX_TTL now, false) := by
        simp only [poll]
        rw [if_neg hq, huncached, if_neg (by decide : ¬ ((false : Bool) = true))]
      rw [hpoll]
      refine ⟨rfl, ?_, ?_, fun h => Bool.noConfusion h,
        fun _ _ => cacheLookup_cacheSet_same _ _ _ _ _⟩
      · intro r2 h2
        injection h2 with h3
        exact h3.symm
      · have hlt : now < now + MAX_TTL := by
          simp only [MAX_TTL]
          omega
        simp only [cacheGet, cacheLookup_cacheSet_same]
        rw [if_pos hlt]

/-- Witness for `terminal_result_latched`: an uncached poll on a live
terminal entry does not invoke the poller. -/
theorem terminal_result_latched_witness :
    (poll false
        [("X", { result := { id := "X", sequence := 1, mutable := false,
                             value := (0 : Nat) },
                 ttl := MAX_TTL, setAt := 0 })] "X"
        (fun _ => { mutable := true, value := 5 }) 1000 0 10000 false).2.2 =
      false := by
  exact (terminal_result_latched false _ "X" _ 1000 0 10000 false
    { id := "X", sequence := 1, mutable := false, value := 0 }
    (by decide) rfl).1

/-- C7: within the lifetime of a cache entry for `id`, the computed
`PollResult.sequence` starts at 1 when no current result exists, advances by
exactly 1 when the poller reports a result that differs (in `value` or
`mutable`) from the current one, and when the poller reports an identical
`value` and `mutable` the prior result object is reused and the sequence does
not advance. -/
theorem pollResult_sequence_behavior {α : Type} [DecidableEq α]
    (cache : ResultCache α) (id : String)
    (poller : Option (PollResult α) → PollerResponse α) (now : Nat) :
    (cacheGet cache id now = none →
      (getUncachedPollResult cache id poller now).result.sequence = 1 ∧
      (getUncachedPollResult cache id poller now).pollerInvoked = true) ∧
    (∀ cur, cacheGet cache id now = some cur → cur.mutable = true →
      ((poller (some cur)).value = cur.value ∧
          (poller (some cur)).mutable = cur.mutable →
        (getUncachedPollResult cache id poller now).result = cur) ∧
      (¬ ((poller (some cur)).value = cur.value ∧
          (poller (some cur)).mutable = cur.mutable) →
        (getUncachedPollResult cache id poller now).result.sequence =
          cur.sequence + 1 ∧
        (getUncachedPollResult cache id poller now).result.value =
          (poller (some cur)).value ∧
        (getUncachedPollResult cache id poller now).result.mutable =
          (poller (some cur)).mutable)) := by
  constructor
  · intro h
    simp [getUncachedPollResult, h]
  · intro cur hcur hmut
    have hnotterm : ¬ (cur.mutable = false) := by
      simp [hmut]
    constructor
    · intro hsame
      simp only [getUncachedPollResult, hcur, if_neg hnotterm, if_pos hsame]
    · intro hdiff
      simp [getUncachedPollResult, hcur, if_neg hnotterm, if_neg hdiff]

/-- Witness for `pollResult_sequence_behavior`: the first computed result
for an id with an empty cache has sequence 1. -/
theorem pollResult_sequence_behavior_witness :
    (getUncachedPollResult ([] : ResultCache Nat) "X"
        (fun _ => { mutable := true, value := 3 }) 0).result.sequence = 1 := by
  exact ((pollResult_sequence_behavior [] "X"
    (fun _ => { mutable := true, value := 3 }) 0).1 rfl).1

theorem joinEntry_map_key (c : Nat) (id : String) (l : List InflightEntry) :
    (joinEntry c id l).map InflightEntry.key = l.map InflightEntry.key := by
  unfold joinEntry
  rw [List.map_map]
  apply List.map_congr_left
  intro en _
  by_cases h : en.key = id
  · simp [h]
  · simp [h]

theorem find?_joinEntry (c : Nat) (id : String) :
    ∀ (l : List InflightEntry) (en : InflightEntry),
      l.find? (fun e2 => e2.key == id) = some en →
      (joinEntry c id l).find? (fun e2 => e2.key == id) =
        some { key := en.key, callers := c :: en.callers }
  | [], en, h => by cases h
  | x :: rest, en, h => by
    by_cases hx : x.key = id
    · have hxe : x = en := by
        rw [List.find?_cons] at h
        simp [hx] at h
        exact h
      subst hxe
      simp [joinEntry, List.find?_cons, hx]
    · have hbeq : (x.key == id) = false := by
        simp [hx]
      have h2 : rest.find? (fun e2 => e2.key == id) = some en := by
        rw [List.find?_cons] at h
        simpa [hbeq] using h
      have ih := find?_joinEntry c id rest en h2
      simp only [joinEntry, List.map_cons] at ih ⊢
      rw [List.find?_cons]
      have hfx : (if (x.key == id) = true then
          { key := x.key, callers := c :: x.callers } else x) = x :=
        if_neg (by simp [hbeq])
      rw [hfx, hbeq]
      exact ih

theorem coalStep_preserves_inv {α : Type} (s : CoalState α) (e : CoalEvent α)
    (h : CoalInv s) : CoalInv (coalStep s e) := by
  cases e with
  | call c id =>
    unfold CoalInv
    cases hc : s.inflight.any (fun en => en.key == id) with
    | true =>
      simp only [coalStep]
      rw [if_pos hc, joinEntry_map_key]
      exact h
    | false =>
      simp only [coalStep]
      rw [if_neg (by simp [hc])]
      have hid : id ∉ s.inflight.map InflightEntry.key := by
        intro hmem
        rcases List.mem_map.mp hmem with ⟨en, hen, hkey⟩
        have hany : s.inflight.any (fun en => en.key == id) = true :=
          List.any_eq_true.mpr ⟨en, hen, by simp [hkey]⟩
        rw [hc] at hany
        cases hany
      exact List.nodup_cons.mpr ⟨hid, h⟩
  | settle id o =>
    unfold CoalInv
    cases hf : s.inflight.find? (fun en => en.key == id) with
    | none =>
      simp only [coalStep, hf]
      exact h
    | some en =>
      simp only [coalStep, hf]
      exact List.Nodup.sublist ((List.filter_sublist _).map _) h

theorem runCoal_foldl_inv {α : Type} (es : List (CoalEvent α)) :
    ∀ s : CoalState α, CoalInv s → CoalInv (es.foldl coalStep s) := by
  induction es with
  | nil => intro s hs; exact hs
  | cons e rest ih => intro s hs; exact ih _ (coalStep_preserves_inv s e hs)

theorem runCoal_inv {α : Type} (es : List (CoalEvent α)) : CoalInv (runCoal es) :=
  runCoal_foldl_inv es (initCoal α) (by simp [CoalInv, initCoal])

theorem runCoal_append_single {α : Type} (es : List (CoalEvent α))
    (e : CoalEvent α) : runCoal (es ++ [e]) = coalStep (runCoal es) e := by
  simp [runCoal, List.foldl_append]

/-- C2: single-flight coalescing. After any interleaving of events: (a) the
in-flight keys are pairwise distinct, so at most one poller invocation is
active per resource id; (b) a `poll` call that overlaps an in-flight entry
for its id joins that entry (no new in-flight computation is created); (c)
when the shared computation settles, every joined caller is delivered that
single outcome and the in-flight entry is removed. -/
theorem poll_coalescing_single_flight (α : Type) (es : List (CoalEvent α)) :
    ((runCoal es).inflight.map InflightEntry.key).Nodup ∧
    (∀ (c : Nat) (id : String) (en : InflightEntry),
      (runCoal es).inflight.find? (fun e2 => e2.key == id) = some en →
      (runCoal (es ++ [CoalEvent.call c id])).inflight.map InflightEntry.key =
        (runCoal es).inflight.map InflightEntry.key ∧
      (runCoal (es ++ [CoalEvent.call c id])).inflight.find?
          (fun e2 => e2.key == id) =
        some { key := en.key, callers := c :: en.callers }) ∧
    (∀ (id : String) (o : α) (en : InflightEntry),
      (runCoal es).inflight.find? (fun e2 => e2.key == id) = some en →
      (∀ en2 ∈ (runCoal (es ++ [CoalEvent.settle id o])).inflight,
        ¬ en2.key = id) ∧
      (∀ c ∈ en.callers,
        (c, id, o) ∈ (runCoal (es ++ [CoalEvent.settle id o])).delivered)) := by
  refine ⟨runCoal_inv es, ?_, ?_⟩
  · intro c id en hfind
    have hp := List.find?_some hfind
    have hany : (runCoal es).inflight.any (fun e2 => e2.key == id) = true :=
      List.any_eq_true.mpr
        ⟨en, List.mem_of_find?_eq_some hfind, by simpa using hp⟩
    have hstep : runCoal (es ++ [CoalEvent.call c id]) =
        { inflight := joinEntry c id (runCoal es).inflight,
          delivered := (runCoal es).delivered } := by
      rw [runCoal_append_single]
      simp only [coalStep]
      rw [if_pos hany]
    rw [hstep]
    exact ⟨joinEntry_map_key c id _, find?_joinEntry c id _ en hfind⟩
  · intro id o en hfind
    have hstep : runCoal (es ++ [CoalEvent.settle id o]) =
        { inflight :=
            (runCoal es).inflight.filter (fun en2 => !(en2.key == id)),
          delivered :=
            en.callers.map (fun c => (c, id, o)) ++ (runCoal es).delivered } := by
      rw [runCoal_append_single]
      simp only [coalStep, hfind]
    rw [hstep]
    constructor
    · intro en2 hmem hkey
      have hp := (List.mem_filter.mp hmem).2
      simp [hkey] at hp
    · intro c hc
      exact List.mem_append_left _ (List.mem_map_of_mem _ hc)

/-- Witness for `poll_coalescing_single_flight`: two callers for the same id
share one in-flight computation; when it settles with outcome 7 the first
caller is delivered that outcome. -/
theorem poll_coalescing_single_flight_witness :
    ((1, "X", 7) : Nat × String × Nat) ∈
      (runCoal ([CoalEvent.call 1 "X", CoalEvent.call 2 "X"] ++
        [CoalEvent.settle "X" (7 : Nat)])).delivered := by
  exact ((poll_coalescing_single_flight Nat
      [CoalEvent.call 1 "X", CoalEvent.call 2 "X"]).2.2 "X" 7
      { key := "X", callers := [2, 1] } (by rfl)).2 1 (by simp)

end BedrockNotify
